import Mathlib

/-!
Shallow embedding of `src/index.tsx` (voice-guided recipe viewer).

The program is a browser app: module-level mutable state (`recipeSteps`,
`currentStepIndex`), a handful of DOM elements whose observable condition we
track (visibility of the four views, the dish input value, the recipe step
text, the prev/next disabled flags, the error box content), and the
speech-synthesis facility (a queue of utterances; `cancel` empties it,
`speak` appends).  We model one program state as a record and each source
function as a state transformer.  The asynchronous Gemini call inside
`getRecipe` is modelled by a `FetchOutcome` parameter describing what the
`await`/`JSON.parse` pipeline produced: either a thrown error (network
failure, missing response text, parse failure) or a parsed JSON value of
shape `{ steps?: string[] } | null`.

JS numbers holding the index are modelled as `Int` (so that the guard
`currentStepIndex < recipeSteps.length - 1` keeps its JS meaning even at
`length = 0`, where the right-hand side is `-1`).  A `fetches` counter
records each entry into `getRecipe`'s request, so "no fetch is performed"
is observable.  A `speechLog` records every speech-facility call in order,
so "emits exactly one read-aloud, cancelling first" is observable.
-/

/-- The four view names accepted by `showView` in `src/index.tsx`. -/
inductive ViewName
  | input
  | recipe
  | loading
  | error
deriving DecidableEq, Repr

/-- One call into the browser speech facility: `speechSynthesis.cancel()` or
`speechSynthesis.speak(new SpeechSynthesisUtterance(text))`. -/
inductive SpeechEvent
  | cancel
  | utter (text : String)
deriving DecidableEq, Repr

/-- The parsed JSON object: `{ steps?: string[] }`.  `steps := none` models a
missing/absent `steps` field (falsy in the `recipeData.steps` check). -/
structure RecipeData where
  steps : Option (List String)
deriving DecidableEq, Repr

/-- What the `await generateContent` / `response.text.trim()` / `JSON.parse`
pipeline produced inside `getRecipe`'s `try` block: `threw msg` for any thrown
error (network/service failure, missing text, malformed JSON), or `ok d` for a
successfully parsed value (`none` models JSON `null`, falsy in the
`recipeData` check). -/
inductive FetchOutcome
  | threw (msg : String)
  | ok (recipeData : Option RecipeData)
deriving DecidableEq, Repr

/-- The observable program state: the two module-level variables of
`src/index.tsx`, the DOM condition the handlers read or write, the speech
queue, the log of speech calls, and a counter of fetch requests issued. -/
structure AppState where
  inputVisible : Bool
  recipeVisible : Bool
  loadingVisible : Bool
  errorVisible : Bool
  recipeSteps : List String
  currentStepIndex : Int
  dishInput : String
  recipeStepText : String
  prevDisabled : Bool
  nextDisabled : Bool
  errorText : String
  errorHasBackButton : Bool
  speechQueue : List String
  speechLog : List SpeechEvent
  fetches : Nat
deriving DecidableEq, Repr

/-- Model of `showView` (src/index.tsx:32-52): adds `hidden` to all four views, then
removes it from the selected one. -/
def showView (viewName : ViewName) (s : AppState) : AppState :=
  let s1 := { s with inputVisible := false, recipeVisible := false,
                     loadingVisible := false, errorVisible := false }
  match viewName with
  | ViewName.input => { s1 with inputVisible := true }
  | ViewName.recipe => { s1 with recipeVisible := true }
  | ViewName.loading => { s1 with loadingVisible := true }
  | ViewName.error => { s1 with errorVisible := true }

/-- Model of `showError` (src/index.tsx:58-74): sets the error div's text, shows the
error view, then clears the div and appends a `<p>` with the message and a
"Try Again" back button. -/
def showError (message : String) (s : AppState) : AppState :=
  -- line 59: errorMessageDiv.textContent = ... (replaces all children)
  let s1 := { s with errorText := "Oops! Something went wrong. " ++ message
                       ++ ". Please try again.",
                     errorHasBackButton := false }
  -- line 60: showView('error')
  let s2 := showView ViewName.error s1
  -- line 69: errorMessageDiv.innerHTML = ''
  let s3 := { s2 with errorText := "", errorHasBackButton := false }
  -- lines 70-72: append <p> holding "Oops! Something went wrong: ${message}."
  let s4 := { s3 with errorText := "Oops! Something went wrong: " ++ message ++ "." }
  -- line 73: append the back button
  { s4 with errorHasBackButton := true }

/-- Clicking the back button created by `showError` (src/index.tsx:64-67):
`showView('input')` then `errorMessageDiv.innerHTML = ''`. -/
def backButtonClick (s : AppState) : AppState :=
  let s1 := showView ViewName.input s
  { s1 with errorText := "", errorHasBackButton := false }

/-- Model of `speechSynthesis.cancel()`: drops every queued or playing utterance. -/
def speechCancel (s : AppState) : AppState :=
  { s with speechQueue := [],
           speechLog := s.speechLog ++ [SpeechEvent.cancel] }

/-- Model of `speechSynthesis.speak(u)`: appends the utterance to the speech queue. -/
def speechSpeakUtterance (text : String) (s : AppState) : AppState :=
  { s with speechQueue := s.speechQueue ++ [text],
           speechLog := s.speechLog ++ [SpeechEvent.utter text] }

/-- Model of `speak` (src/index.tsx:81-90), in a browser where `speechSynthesis` is
available: cancel any previous speech, then speak the new utterance. -/
def speak (text : String) (s : AppState) : AppState :=
  speechSpeakUtterance text (speechCancel s)

/-- Model of `updateRecipeStepUI` (src/index.tsx:95-106): early return when no steps
are loaded; otherwise display the current step, refresh the prev/next
disabled flags, and read the step aloud. -/
def updateRecipeStepUI (s : AppState) : AppState :=
  if s.recipeSteps.length = 0 then s
  else
    let currentStep := s.recipeSteps.getD s.currentStepIndex.toNat ""
    let s1 := { s with recipeStepText := currentStep,
                       prevDisabled := s.currentStepIndex == 0,
                       nextDisabled :=
                         s.currentStepIndex == (s.recipeSteps.length : Int) - 1 }
    speak currentStep s1

/-- The body of `getRecipe`'s `try`/`catch` (src/index.tsx:114-151), given the
outcome of the awaited request/parse pipeline.  The `if recipeData &&
recipeData.steps && recipeData.steps.length > 0` truthiness test is mirrored
by the nested matches; the `throw new Error(...)` on its `else` branch lands
in the same `catch` as any pipeline error, hence the same `showError`. -/
def getRecipeResponse (outcome : FetchOutcome) (s : AppState) : AppState :=
  match outcome with
  | FetchOutcome.threw msg => showError msg s
  | FetchOutcome.ok recipeData =>
    match recipeData with
    | none => showError "Could not find a recipe for that dish." s
    | some rd =>
      match rd.steps with
      | none => showError "Could not find a recipe for that dish." s
      | some steps =>
        if steps.length > 0 then
          let s1 := { s with recipeSteps := steps, currentStepIndex := 0 }
          let s2 := updateRecipeStepUI s1
          showView ViewName.recipe s2
        else showError "Could not find a recipe for that dish." s

/-- Model of `getRecipe` (src/index.tsx:112-152): show the loading view, issue the
request (counted in `fetches`), then handle the outcome. -/
def getRecipe (_dishName : String) (outcome : FetchOutcome) (s : AppState) : AppState :=
  getRecipeResponse outcome
    { showView ViewName.loading s with fetches := s.fetches + 1 }

/-- JS `String.prototype.trim()`: the string with leading and trailing
whitespace removed (executable model; Lean's own `String.trim` is not
kernel-reducible). -/
def jsTrim (s : String) : String :=
  String.mk
    (((s.data.dropWhile Char.isWhitespace).reverse.dropWhile
        Char.isWhitespace).reverse)

/-- Model of `handleFormSubmit` (src/index.tsx:157-163): trim the dish input; a truthy
(non-empty) result triggers `getRecipe`, otherwise nothing happens. -/
def handleFormSubmit (outcome : FetchOutcome) (s : AppState) : AppState :=
  let dishName := jsTrim s.dishInput
  if dishName ≠ "" then getRecipe dishName outcome s else s

/-- Model of `handleNextStep` (src/index.tsx:165-170). -/
def handleNextStep (s : AppState) : AppState :=
  if s.currentStepIndex < (s.recipeSteps.length : Int) - 1 then
    updateRecipeStepUI { s with currentStepIndex := s.currentStepIndex + 1 }
  else s

/-- Model of `handlePrevStep` (src/index.tsx:172-177). -/
def handlePrevStep (s : AppState) : AppState :=
  if s.currentStepIndex > 0 then
    updateRecipeStepUI { s with currentStepIndex := s.currentStepIndex - 1 }
  else s

/-- Model of `handleRepeatStep` (src/index.tsx:179-181): re-reads the current step. -/
def handleRepeatStep (s : AppState) : AppState :=
  updateRecipeStepUI s

/-- Model of `handleStartOver` (src/index.tsx:183-189). -/
def handleStartOver (s : AppState) : AppState :=
  let s1 := { s with recipeSteps := [], currentStepIndex := 0, dishInput := "" }
  showView ViewName.input (speechCancel s1)

/-- The startup function (src/index.tsx:194-208): with no API key it shows an
error and returns; otherwise it wires the handlers and shows the input view. -/
def initApp (apiKeyConfigured : Bool) (s : AppState) : AppState :=
  if apiKeyConfigured then showView ViewName.input s
  else showError "API_KEY is not configured." s

/-- The page's state before the script runs: module-level `recipeSteps = []`,
`currentStepIndex = 0`, empty input and error box, idle speech facility. -/
def domInitState : AppState :=
  { inputVisible := false, recipeVisible := false, loadingVisible := false,
    errorVisible := false, recipeSteps := [], currentStepIndex := 0,
    dishInput := "", recipeStepText := "", prevDisabled := false,
    nextDisabled := false, errorText := "", errorHasBackButton := false,
    speechQueue := [], speechLog := [], fetches := 0 }

/-- The state after startup with a configured API key. -/
def initState : AppState := initApp true domInitState

/-- One user-driven operation on the running app: a load (a `getRecipe` call
with a given request outcome), a next/previous/repeat click, or start over. -/
inductive Op
  | load (outcome : FetchOutcome)
  | next
  | prev
  | repeatStep
  | reset
deriving Repr

/-- Dispatch one operation to its handler. -/
def runOp (s : AppState) (op : Op) : AppState :=
  match op with
  | Op.load outcome => getRecipe "" outcome s
  | Op.next => handleNextStep s
  | Op.prev => handlePrevStep s
  | Op.repeatStep => handleRepeatStep s
  | Op.reset => handleStartOver s

/-- Run a sequence of operations from a state. -/
def run (s : AppState) (ops : List Op) : AppState :=
  ops.foldl runOp s

/-- The step-index invariant of the session state machine. -/
def StepInv (s : AppState) : Prop :=
  (s.recipeSteps = [] → s.currentStepIndex = 0) ∧
  (s.recipeSteps ≠ [] →
    0 ≤ s.currentStepIndex ∧ s.currentStepIndex < s.recipeSteps.length)

instance (s : AppState) : Decidable (StepInv s) := by
  unfold StepInv; infer_instance

/-- Exactly `v` is the visible view and the other three are hidden. -/
def visibleOnly (v : ViewName) (s : AppState) : Prop :=
  (s.inputVisible, s.recipeVisible, s.loadingVisible, s.errorVisible) =
    match v with
    | ViewName.input => (true, false, false, false)
    | ViewName.recipe => (false, true, false, false)
    | ViewName.loading => (false, false, true, false)
    | ViewName.error => (false, false, false, true)

instance (v : ViewName) (s : AppState) : Decidable (visibleOnly v s) := by
  unfold visibleOnly; infer_instance

/-- Did the parsed outcome pass the `recipeData && recipeData.steps &&
recipeData.steps.length > 0` test? -/
def successOutcome : FetchOutcome → Bool
  | FetchOutcome.threw _ => false
  | FetchOutcome.ok none => false
  | FetchOutcome.ok (some rd) =>
    match rd.steps with
    | none => false
    | some steps => decide (steps.length > 0)

/-! ### Frame lemmas: which fields each transformer leaves unchanged -/

@[simp] lemma showView_recipeSteps (v : ViewName) (s : AppState) :
    (showView v s).recipeSteps = s.recipeSteps := by cases v <;> rfl

@[simp] lemma showView_currentStepIndex (v : ViewName) (s : AppState) :
    (showView v s).currentStepIndex = s.currentStepIndex := by cases v <;> rfl

@[simp] lemma showView_dishInput (v : ViewName) (s : AppState) :
    (showView v s).dishInput = s.dishInput := by cases v <;> rfl

@[simp] lemma showView_speechQueue (v : ViewName) (s : AppState) :
    (showView v s).speechQueue = s.speechQueue := by cases v <;> rfl

@[simp] lemma showView_speechLog (v : ViewName) (s : AppState) :
    (showView v s).speechLog = s.speechLog := by cases v <;> rfl

@[simp] lemma showView_fetches (v : ViewName) (s : AppState) :
    (showView v s).fetches = s.fetches := by cases v <;> rfl

@[simp] lemma showView_errorText (v : ViewName) (s : AppState) :
    (showView v s).errorText = s.errorText := by cases v <;> rfl

@[simp] lemma showView_errorHasBackButton (v : ViewName) (s : AppState) :
    (showView v s).errorHasBackButton = s.errorHasBackButton := by cases v <;> rfl

@[simp] lemma showView_recipeStepText (v : ViewName) (s : AppState) :
    (showView v s).recipeStepText = s.recipeStepText := by cases v <;> rfl

@[simp] lemma showView_prevDisabled (v : ViewName) (s : AppState) :
    (showView v s).prevDisabled = s.prevDisabled := by cases v <;> rfl

@[simp] lemma showView_nextDisabled (v : ViewName) (s : AppState) :
    (showView v s).nextDisabled = s.nextDisabled := by cases v <;> rfl

@[simp] lemma showError_recipeSteps (m : String) (s : AppState) :
    (showError m s).recipeSteps = s.recipeSteps := by simp [showError]

@[simp] lemma showError_currentStepIndex (m : String) (s : AppState) :
    (showError m s).currentStepIndex = s.currentStepIndex := by simp [showError]

@[simp] lemma showError_dishInput (m : String) (s : AppState) :
    (showError m s).dishInput = s.dishInput := by simp [showError]

@[simp] lemma showError_speechQueue (m : String) (s : AppState) :
    (showError m s).speechQueue = s.speechQueue := by simp [showError]

@[simp] lemma showError_speechLog (m : String) (s : AppState) :
    (showError m s).speechLog = s.speechLog := by simp [showError]

@[simp] lemma showError_fetches (m : String) (s : AppState) :
    (showError m s).fetches = s.fetches := by simp [showError]

@[simp] lemma showError_errorHasBackButton (m : String) (s : AppState) :
    (showError m s).errorHasBackButton = true := by simp [showError]

@[simp] lemma showError_errorText (m : String) (s : AppState) :
    (showError m s).errorText = "Oops! Something went wrong: " ++ m ++ "." := by
  simp [showError]

@[simp] lemma updateRecipeStepUI_recipeSteps (s : AppState) :
    (updateRecipeStepUI s).recipeSteps = s.recipeSteps := by
  unfold updateRecipeStepUI; split <;> rfl

@[simp] lemma updateRecipeStepUI_currentStepIndex (s : AppState) :
    (updateRecipeStepUI s).currentStepIndex = s.currentStepIndex := by
  unfold updateRecipeStepUI; split <;> rfl

@[simp] lemma updateRecipeStepUI_dishInput (s : AppState) :
    (updateRecipeStepUI s).dishInput = s.dishInput := by
  unfold updateRecipeStepUI; split <;> rfl

@[simp] lemma updateRecipeStepUI_fetches (s : AppState) :
    (updateRecipeStepUI s).fetches = s.fetches := by
  unfold updateRecipeStepUI; split <;> rfl

@[simp] lemma updateRecipeStepUI_inputVisible (s : AppState) :
    (updateRecipeStepUI s).inputVisible = s.inputVisible := by
  unfold updateRecipeStepUI; split <;> rfl

@[simp] lemma updateRecipeStepUI_recipeVisible (s : AppState) :
    (updateRecipeStepUI s).recipeVisible = s.recipeVisible := by
  unfold updateRecipeStepUI; split <;> rfl

@[simp] lemma updateRecipeStepUI_loadingVisible (s : AppState) :
    (updateRecipeStepUI s).loadingVisible = s.loadingVisible := by
  unfold updateRecipeStepUI; split <;> rfl

@[simp] lemma updateRecipeStepUI_errorVisible (s : AppState) :
    (updateRecipeStepUI s).errorVisible = s.errorVisible := by
  unfold updateRecipeStepUI; split <;> rfl

@[simp] lemma updateRecipeStepUI_errorText (s : AppState) :
    (updateRecipeStepUI s).errorText = s.errorText := by
  unfold updateRecipeStepUI; split <;> rfl

@[simp] lemma updateRecipeStepUI_errorHasBackButton (s : AppState) :
    (updateRecipeStepUI s).errorHasBackButton = s.errorHasBackButton := by
  unfold updateRecipeStepUI; split <;> rfl

/-! ### The step-index invariant is preserved by every operation -/

lemma stepInv_of_eq {s t : AppState} (hsteps : t.recipeSteps = s.recipeSteps)
    (hidx : t.currentStepIndex = s.currentStepIndex) (h : StepInv s) :
    StepInv t := by
  unfold StepInv at h ⊢; rw [hsteps, hidx]; exact h

lemma stepInv_getRecipe (d : String) (outcome : FetchOutcome) (s : AppState)
    (h : StepInv s) : StepInv (getRecipe d outcome s) := by
  cases outcome with
  | threw msg =>
    exact stepInv_of_eq (by simp [getRecipe, getRecipeResponse])
      (by simp [getRecipe, getRecipeResponse]) h
  | ok recipeData =>
    cases recipeData with
    | none =>
      exact stepInv_of_eq (by simp [getRecipe, getRecipeResponse])
        (by simp [getRecipe, getRecipeResponse]) h
    | some rd =>
      obtain ⟨stepsField⟩ := rd
      cases stepsField with
      | none =>
        exact stepInv_of_eq (by simp [getRecipe, getRecipeResponse])
          (by simp [getRecipe, getRecipeResponse]) h
      | some steps =>
        simp only [getRecipe, getRecipeResponse]
        split
        · next hlen =>
          constructor
          · intro he
            simp only [showView_recipeSteps, updateRecipeStepUI_recipeSteps] at he
            subst he
            simp at hlen
          · intro _
            simp only [showView_currentStepIndex, showView_recipeSteps,
              updateRecipeStepUI_currentStepIndex, updateRecipeStepUI_recipeSteps]
            exact ⟨by omega, by exact_mod_cast hlen⟩
        · exact stepInv_of_eq (by simp) (by simp) h

lemma stepInv_handleNextStep (s : AppState) (h : StepInv s) :
    StepInv (handleNextStep s) := by
  obtain ⟨h0, h1⟩ := h
  unfold handleNextStep
  split
  · next hlt =>
    have hne : s.recipeSteps ≠ [] := by
      intro he
      rw [he] at hlt
      have := h0 he
      simp only [List.length_nil, Nat.cast_zero] at hlt
      omega
    have hb := h1 hne
    constructor
    · intro he
      simp only [updateRecipeStepUI_recipeSteps] at he
      exact absurd he hne
    · intro _
      simp only [updateRecipeStepUI_currentStepIndex,
        updateRecipeStepUI_recipeSteps]
      exact ⟨by omega, by omega⟩
  · exact ⟨h0, h1⟩

lemma stepInv_handlePrevStep (s : AppState) (h : StepInv s) :
    StepInv (handlePrevStep s) := by
  obtain ⟨h0, h1⟩ := h
  unfold handlePrevStep
  split
  · next hgt =>
    constructor
    · intro he
      simp only [updateRecipeStepUI_recipeSteps] at he
      have := h0 he
      omega
    · intro hne
      simp only [updateRecipeStepUI_recipeSteps] at hne
      simp only [updateRecipeStepUI_currentStepIndex,
        updateRecipeStepUI_recipeSteps]
      have hb := h1 hne
      exact ⟨by omega, by omega⟩
  · exact ⟨h0, h1⟩

lemma stepInv_handleStartOver (s : AppState) : StepInv (handleStartOver s) := by
  constructor
  · intro _; simp [handleStartOver, speechCancel]
  · intro hne
    exact absurd (by simp [handleStartOver, speechCancel]) hne

lemma stepInv_runOp (s : AppState) (op : Op) (h : StepInv s) :
    StepInv (runOp s op) := by
  cases op with
  | load outcome => exact stepInv_getRecipe "" outcome s h
  | next => exact stepInv_handleNextStep s h
  | prev => exact stepInv_handlePrevStep s h
  | repeatStep =>
    show StepInv (updateRecipeStepUI s)
    exact stepInv_of_eq (updateRecipeStepUI_recipeSteps s)
      (updateRecipeStepUI_currentStepIndex s) h
  | reset => exact stepInv_handleStartOver s

lemma stepInv_run (ops : List Op) : ∀ s : AppState, StepInv s → StepInv (run s ops) := by
  induction ops with
  | nil => intro s h; exact h
  | cons op ops ih => intro s h; exact ih (runOp s op) (stepInv_runOp s op h)

lemma stepInv_initState : StepInv initState := by decide

/-! ### View visibility lemmas -/

lemma visibleOnly_showView (v : ViewName) (s : AppState) :
    visibleOnly v (showView v s) := by cases v <;> rfl

lemma visibleOnly_showError (m : String) (s : AppState) :
    visibleOnly ViewName.error (showError m s) := rfl

lemma visibleOnly_backButtonClick (s : AppState) :
    visibleOnly ViewName.input (backButtonClick s) := rfl

/-- On any outcome failing the `recipeData && recipeData.steps &&
recipeData.steps.length > 0` test, the response handler runs `showError`:
the session fields and speech state are untouched, the error view is the
only visible one, and the error box holds the back button. -/
lemma getRecipeResponse_failure (o : FetchOutcome) (s : AppState)
    (h : successOutcome o = false) :
    (getRecipeResponse o s).recipeSteps = s.recipeSteps ∧
    (getRecipeResponse o s).currentStepIndex = s.currentStepIndex ∧
    (getRecipeResponse o s).dishInput = s.dishInput ∧
    (getRecipeResponse o s).speechQueue = s.speechQueue ∧
    (getRecipeResponse o s).speechLog = s.speechLog ∧
    (getRecipeResponse o s).errorHasBackButton = true ∧
    visibleOnly ViewName.error (getRecipeResponse o s) := by
  cases o with
  | threw msg =>
    exact ⟨by simp [getRecipeResponse], by simp [getRecipeResponse],
      by simp [getRecipeResponse], by simp [getRecipeResponse],
      by simp [getRecipeResponse], by simp [getRecipeResponse],
      visibleOnly_showError _ _⟩
  | ok recipeData =>
    cases recipeData with
    | none =>
      exact ⟨by simp [getRecipeResponse], by simp [getRecipeResponse],
        by simp [getRecipeResponse], by simp [getRecipeResponse],
        by simp [getRecipeResponse], by simp [getRecipeResponse],
        visibleOnly_showError _ _⟩
    | some rd =>
      obtain ⟨stepsField⟩ := rd
      cases stepsField with
      | none =>
        exact ⟨by simp [getRecipeResponse], by simp [getRecipeResponse],
          by simp [getRecipeResponse], by simp [getRecipeResponse],
          by simp [getRecipeResponse], by simp [getRecipeResponse],
          visibleOnly_showError _ _⟩
      | some steps =>
        cases steps with
        | cons a l => simp [successOutcome] at h
        | nil =>
          simp only [getRecipeResponse]
          rw [if_neg (by simp)]
          exact ⟨by simp, by simp, by simp, by simp, by simp, by simp,
            visibleOnly_showError _ _⟩

/-- The state `getRecipe` hands to the response handler: loading view shown,
fetch counter bumped, everything else as before. -/
lemma getRecipe_prefetch_fields (s : AppState) :
    ({ showView ViewName.loading s with fetches := s.fetches + 1 } :
        AppState).recipeSteps = s.recipeSteps ∧
    ({ showView ViewName.loading s with fetches := s.fetches + 1 } :
        AppState).currentStepIndex = s.currentStepIndex ∧
    ({ showView ViewName.loading s with fetches := s.fetches + 1 } :
        AppState).dishInput = s.dishInput ∧
    ({ showView ViewName.loading s with fetches := s.fetches + 1 } :
        AppState).speechQueue = s.speechQueue ∧
    ({ showView ViewName.loading s with fetches := s.fetches + 1 } :
        AppState).speechLog = s.speechLog := by
  exact ⟨by simp, by simp, by simp, by simp, by simp⟩

/-! ### Claim theorems -/

/-- Claim C1: along every sequence of operations (load, next, previous,
repeat, reset) from the startup state, `currentStepIndex` stays within
`[0, recipeSteps.length - 1]` whenever `recipeSteps` is non-empty and equals
`0` whenever it is empty; moreover `next()` at the last index and
`previous()` at index `0` are no-ops. -/
theorem C1_step_index_invariant :
    (∀ ops : List Op, StepInv (run initState ops)) ∧
    (∀ s : AppState, s.currentStepIndex = (s.recipeSteps.length : Int) - 1 →
      handleNextStep s = s) ∧
    (∀ s : AppState, s.currentStepIndex = 0 → handlePrevStep s = s) := by
  refine ⟨fun ops => stepInv_run ops initState stepInv_initState, ?_, ?_⟩
  · intro s hs
    have hng : ¬ (s.currentStepIndex < (s.recipeSteps.length : Int) - 1) := by
      omega
    unfold handleNextStep
    rw [if_neg hng]
  · intro s hs
    have hng : ¬ (s.currentStepIndex > 0) := by omega
    unfold handlePrevStep
    rw [if_neg hng]

/-- Witness for C1 at a concrete run and concrete boundary states. -/
theorem C1_step_index_invariant_witness :
    StepInv (run initState
      [Op.load (FetchOutcome.ok (some ⟨some ["a", "b"]⟩)), Op.next, Op.next]) ∧
    handleNextStep
        { initState with recipeSteps := ["a", "b"], currentStepIndex := 1 } =
      { initState with recipeSteps := ["a", "b"], currentStepIndex := 1 } ∧
    handlePrevStep
        { initState with recipeSteps := ["a", "b"], currentStepIndex := 0 } =
      { initState with recipeSteps := ["a", "b"], currentStepIndex := 0 } :=
  ⟨C1_step_index_invariant.1 _,
   C1_step_index_invariant.2.1 _ (by decide),
   C1_step_index_invariant.2.2 _ (by decide)⟩

/-- Claim C6: `showView` makes exactly the requested view visible and hides
the other three, and a repeated call with the same view name changes
nothing. -/
theorem C6_showView_exclusive_idempotent :
    ∀ (v : ViewName) (s : AppState),
      visibleOnly v (showView v s) ∧ showView v (showView v s) = showView v s := by
  intro v s
  exact ⟨visibleOnly_showView v s, by cases v <;> rfl⟩

/-- Claim C8: from every state, start over returns to the Input view with no
steps loaded, index `0`, and a cleared dish field. -/
theorem C8_reset_returns_to_input :
    ∀ s : AppState,
      visibleOnly ViewName.input (handleStartOver s) ∧
      (handleStartOver s).recipeSteps = [] ∧
      (handleStartOver s).currentStepIndex = 0 ∧
      (handleStartOver s).dishInput = "" := by
  intro s
  exact ⟨rfl, by simp [handleStartOver, speechCancel], by simp [handleStartOver, speechCancel],
    by simp [handleStartOver, speechCancel]⟩

/-- Claim C10: submitting with a dish input that is empty (or whitespace
only) after trimming performs no fetch and leaves the whole state exactly as
it was. -/
theorem C10_blank_submit_is_noop :
    ∀ (s : AppState) (outcome : FetchOutcome),
      jsTrim s.dishInput = "" →
      handleFormSubmit outcome s = s ∧
      (handleFormSubmit outcome s).fetches = s.fetches := by
  intro s outcome h
  have : handleFormSubmit outcome s = s := by
    unfold handleFormSubmit
    simp [h]
  exact ⟨this, by rw [this]⟩

/-- Witness for C10: whitespace-only dish input. -/
theorem C10_blank_submit_is_noop_witness :
    handleFormSubmit (FetchOutcome.threw "network down")
        { initState with dishInput := "   " } =
      { initState with dishInput := "   " } ∧
    (handleFormSubmit (FetchOutcome.threw "network down")
        { initState with dishInput := "   " }).fetches =
      ({ initState with dishInput := "   " } : AppState).fetches :=
  C10_blank_submit_is_noop _ _ (by decide)

/-- With steps loaded and non-empty, refreshing the step UI displays the
current step and emits exactly one cancel-then-utter pair for it. -/
lemma updateRecipeStepUI_speech (s : AppState) (h : s.recipeSteps ≠ []) :
    (updateRecipeStepUI s).speechLog = s.speechLog ++ [SpeechEvent.cancel,
      SpeechEvent.utter (s.recipeSteps.getD s.currentStepIndex.toNat "")] ∧
    (updateRecipeStepUI s).speechQueue =
      [s.recipeSteps.getD s.currentStepIndex.toNat ""] ∧
    (updateRecipeStepUI s).recipeStepText =
      s.recipeSteps.getD s.currentStepIndex.toNat "" := by
  unfold updateRecipeStepUI
  rw [if_neg (mt List.length_eq_zero.mp h)]
  refine ⟨?_, ?_, ?_⟩ <;> simp [speak, speechCancel, speechSpeakUtterance]

/-- On an outcome passing the non-empty-steps test, the response handler
installs the steps, resets the index to `0`, shows the recipe view, and
emits one cancel-then-utter pair for the first step. -/
lemma getRecipeResponse_success (steps : List String) (s : AppState)
    (h : steps ≠ []) :
    (getRecipeResponse (FetchOutcome.ok (some ⟨some steps⟩)) s).recipeSteps = steps ∧
    (getRecipeResponse (FetchOutcome.ok (some ⟨some steps⟩)) s).currentStepIndex = 0 ∧
    visibleOnly ViewName.recipe
      (getRecipeResponse (FetchOutcome.ok (some ⟨some steps⟩)) s) ∧
    (getRecipeResponse (FetchOutcome.ok (some ⟨some steps⟩)) s).speechLog =
      s.speechLog ++ [SpeechEvent.cancel, SpeechEvent.utter (steps.getD 0 "")] ∧
    (getRecipeResponse (FetchOutcome.ok (some ⟨some steps⟩)) s).speechQueue =
      [steps.getD 0 ""] ∧
    (getRecipeResponse (FetchOutcome.ok (some ⟨some steps⟩)) s).dishInput =
      s.dishInput := by
  have hpos : steps.length > 0 := List.length_pos.mpr h
  simp only [getRecipeResponse]
  rw [if_pos hpos]
  have hne : ({ s with recipeSteps := steps, currentStepIndex := 0 } :
      AppState).recipeSteps ≠ [] := h
  obtain ⟨hlog, hq, _⟩ :=
    updateRecipeStepUI_speech { s with recipeSteps := steps, currentStepIndex := 0 } hne
  refine ⟨by simp, by simp, visibleOnly_showView _ _, ?_, ?_, by simp⟩
  · rw [showView_speechLog, hlog]; simp
  · rw [showView_speechQueue, hq]; simp

/-- Claim C2: for every submission whose trimmed dish name is non-empty, the
handler runs `getRecipe`, which first shows the Loading view (alone) and, on
completion of the request, shows exactly the Recipe view when the outcome is
a structurally valid non-empty steps response, and exactly the Error view on
any thrown error, parse failure, missing or empty steps array. -/
theorem C2_submit_loading_then_recipe_or_error :
    ∀ (s : AppState) (outcome : FetchOutcome),
      jsTrim s.dishInput ≠ "" →
      handleFormSubmit outcome s =
        getRecipeResponse outcome
          { showView ViewName.loading s with fetches := s.fetches + 1 } ∧
      visibleOnly ViewName.loading (showView ViewName.loading s) ∧
      (successOutcome outcome = true →
        visibleOnly ViewName.recipe (handleFormSubmit outcome s)) ∧
      (successOutcome outcome = false →
        visibleOnly ViewName.error (handleFormSubmit outcome s)) := by
  intro s outcome h
  have hrun : handleFormSubmit outcome s =
      getRecipeResponse outcome
        { showView ViewName.loading s with fetches := s.fetches + 1 } := by
    unfold handleFormSubmit
    rw [if_pos h]
    rfl
  refine ⟨hrun, visibleOnly_showView _ _, ?_, ?_⟩
  · intro hsucc
    rw [hrun]
    cases outcome with
    | threw msg => simp [successOutcome] at hsucc
    | ok recipeData =>
      cases recipeData with
      | none => simp [successOutcome] at hsucc
      | some rd =>
        obtain ⟨stepsField⟩ := rd
        cases stepsField with
        | none => simp [successOutcome] at hsucc
        | some steps =>
          have hne : steps ≠ [] := by
            intro he; subst he; simp [successOutcome] at hsucc
          exact (getRecipeResponse_success steps _ hne).2.2.1
  · intro hfail
    rw [hrun]
    exact (getRecipeResponse_failure outcome _ hfail).2.2.2.2.2.2

/-- Witness for C2: the "omelette" scenario with a three-step response, and
a failing outcome on the same input. -/
theorem C2_submit_loading_then_recipe_or_error_witness :
    visibleOnly ViewName.recipe
      (handleFormSubmit
        (FetchOutcome.ok (some ⟨some ["Crack eggs", "Whisk", "Cook"]⟩))
        { initState with dishInput := "omelette" }) ∧
    visibleOnly ViewName.error
      (handleFormSubmit (FetchOutcome.threw "network down")
        { initState with dishInput := "omelette" }) :=
  ⟨(C2_submit_loading_then_recipe_or_error _ _ (by decide)).2.2.1 (by decide),
   (C2_submit_loading_then_recipe_or_error _ _ (by decide)).2.2.2 (by decide)⟩

/-- Claim C3: every response with an empty steps array, and every malformed
response (thrown error, null JSON, missing steps field), takes the load path
to the Error view without replacing the session's steps; the empty-steps
response is handled by the very same state transformation as a thrown
backend failure. -/
theorem C3_empty_steps_is_error :
    (∀ (d : String) (s : AppState) (outcome : FetchOutcome),
      successOutcome outcome = false →
      (getRecipe d outcome s).recipeSteps = s.recipeSteps ∧
      (getRecipe d outcome s).currentStepIndex = s.currentStepIndex ∧
      visibleOnly ViewName.error (getRecipe d outcome s)) ∧
    (∀ (d : String) (s : AppState),
      getRecipe d (FetchOutcome.ok (some ⟨some []⟩)) s =
        getRecipe d (FetchOutcome.threw "Could not find a recipe for that dish.") s) := by
  constructor
  · intro d s outcome h
    obtain ⟨h1, h2, _, _, _, _, h7⟩ := getRecipeResponse_failure outcome
      { showView ViewName.loading s with fetches := s.fetches + 1 } h
    unfold getRecipe
    refine ⟨?_, ?_, h7⟩
    · rw [h1]; simp
    · rw [h2]; simp
  · intro d s
    rfl

/-- Witness for C3: an empty-steps response at the startup state. -/
theorem C3_empty_steps_is_error_witness :
    (getRecipe "omelette" (FetchOutcome.ok (some ⟨some []⟩)) initState).recipeSteps =
      initState.recipeSteps ∧
    (getRecipe "omelette" (FetchOutcome.ok (some ⟨some []⟩)) initState).currentStepIndex =
      initState.currentStepIndex ∧
    visibleOnly ViewName.error
      (getRecipe "omelette" (FetchOutcome.ok (some ⟨some []⟩)) initState) :=
  C3_empty_steps_is_error.1 "omelette" initState _ (by decide)

/-- Claim C4: every response with a non-empty steps array replaces the
session's steps wholesale, resets the index to `0`, and makes the Recipe view
the (only) visible view. -/
theorem C4_load_nonempty_success :
    ∀ (d : String) (s : AppState) (steps : List String),
      1 ≤ steps.length →
      (getRecipe d (FetchOutcome.ok (some ⟨some steps⟩)) s).recipeSteps = steps ∧
      (getRecipe d (FetchOutcome.ok (some ⟨some steps⟩)) s).currentStepIndex = 0 ∧
      visibleOnly ViewName.recipe
        (getRecipe d (FetchOutcome.ok (some ⟨some steps⟩)) s) := by
  intro d s steps h
  have hne : steps ≠ [] := List.length_pos.mp (by omega)
  obtain ⟨h1, h2, h3, _, _, _⟩ := getRecipeResponse_success steps
    { showView ViewName.loading s with fetches := s.fetches + 1 } hne
  exact ⟨h1, h2, h3⟩

/-- Witness for C4: the three-step omelette response. -/
theorem C4_load_nonempty_success_witness :
    (getRecipe "omelette"
        (FetchOutcome.ok (some ⟨some ["Crack eggs", "Whisk", "Cook"]⟩))
        initState).recipeSteps = ["Crack eggs", "Whisk", "Cook"] ∧
    (getRecipe "omelette"
        (FetchOutcome.ok (some ⟨some ["Crack eggs", "Whisk", "Cook"]⟩))
        initState).currentStepIndex = 0 ∧
    visibleOnly ViewName.recipe
      (getRecipe "omelette"
        (FetchOutcome.ok (some ⟨some ["Crack eggs", "Whisk", "Cook"]⟩))
        initState) :=
  C4_load_nonempty_success "omelette" initState _ (by decide)

/-- Claim C5 counterexample: run the spec's own scenario — dish "omelette"
submitted, the service answers `{steps: []}`, the Error view appears with the
recovery control — then activate the control.  The system is back on the
Input view, but the dish input field still holds "omelette": it is not
cleared. -/
theorem C5_recovery_counterexample :
    (backButtonClick (handleFormSubmit (FetchOutcome.ok (some ⟨some []⟩))
        { initState with dishInput := "omelette" })).inputVisible = true ∧
    (backButtonClick (handleFormSubmit (FetchOutcome.ok (some ⟨some []⟩))
        { initState with dishInput := "omelette" })).dishInput = "omelette" ∧
    (backButtonClick (handleFormSubmit (FetchOutcome.ok (some ⟨some []⟩))
        { initState with dishInput := "omelette" })).dishInput ≠ "" := by
  refine ⟨rfl, rfl, ?_⟩
  decide

/-- Claim C5 (amended): after any fetch failure (including an empty steps
response) the Error view shows the recovery control, and activating it
returns the system to the Input view with the error content cleared — but
the dish input field keeps its previous value rather than being cleared. -/
theorem C5_recovery_control_amended :
    ∀ (d : String) (s : AppState) (outcome : FetchOutcome),
      successOutcome outcome = false →
      (getRecipe d outcome s).errorHasBackButton = true ∧
      visibleOnly ViewName.error (getRecipe d outcome s) ∧
      visibleOnly ViewName.input (backButtonClick (getRecipe d outcome s)) ∧
      (backButtonClick (getRecipe d outcome s)).errorText = "" ∧
      (backButtonClick (getRecipe d outcome s)).errorHasBackButton = false ∧
      (backButtonClick (getRecipe d outcome s)).dishInput = s.dishInput := by
  intro d s outcome h
  obtain ⟨_, _, h3, _, _, h6, h7⟩ := getRecipeResponse_failure outcome
    { showView ViewName.loading s with fetches := s.fetches + 1 } h
  unfold getRecipe
  refine ⟨h6, h7, visibleOnly_backButtonClick _, rfl, rfl, ?_⟩
  show (showView ViewName.input (getRecipeResponse outcome _)).dishInput = s.dishInput
  rw [showView_dishInput, h3]
  simp

/-- Witness for C5 (amended) at the scenario input. -/
theorem C5_recovery_control_amended_witness :
    (getRecipe "omelette" (FetchOutcome.ok (some ⟨some []⟩))
        { initState with dishInput := "omelette" }).errorHasBackButton = true ∧
    visibleOnly ViewName.error
      (getRecipe "omelette" (FetchOutcome.ok (some ⟨some []⟩))
        { initState with dishInput := "omelette" }) ∧
    visibleOnly ViewName.input
      (backButtonClick (getRecipe "omelette" (FetchOutcome.ok (some ⟨some []⟩))
        { initState with dishInput := "omelette" })) ∧
    (backButtonClick (getRecipe "omelette" (FetchOutcome.ok (some ⟨some []⟩))
        { initState with dishInput := "omelette" })).errorText = "" ∧
    (backButtonClick (getRecipe "omelette" (FetchOutcome.ok (some ⟨some []⟩))
        { initState with dishInput := "omelette" })).errorHasBackButton = false ∧
    (backButtonClick (getRecipe "omelette" (FetchOutcome.ok (some ⟨some []⟩))
        { initState with dishInput := "omelette" })).dishInput =
      ({ initState with dishInput := "omelette" } : AppState).dishInput :=
  C5_recovery_control_amended "omelette" _ _ (by decide)

/-! ### At most one utterance is ever queued -/

lemma queueLen_updateRecipeStepUI (s : AppState)
    (h : s.speechQueue.length ≤ 1) :
    (updateRecipeStepUI s).speechQueue.length ≤ 1 := by
  unfold updateRecipeStepUI
  split
  · exact h
  · simp [speak, speechCancel, speechSpeakUtterance]

lemma queueLen_runOp (s : AppState) (op : Op)
    (h : s.speechQueue.length ≤ 1) :
    (runOp s op).speechQueue.length ≤ 1 := by
  cases op with
  | load outcome =>
    show (getRecipe "" outcome s).speechQueue.length ≤ 1
    cases outcome with
    | threw msg =>
      have hq : (getRecipe "" (FetchOutcome.threw msg) s).speechQueue =
          s.speechQueue := by
        simp [getRecipe, getRecipeResponse]
      rw [hq]; exact h
    | ok recipeData =>
      cases recipeData with
      | none =>
        have hq : (getRecipe "" (FetchOutcome.ok none) s).speechQueue =
            s.speechQueue := by
          simp [getRecipe, getRecipeResponse]
        rw [hq]; exact h
      | some rd =>
        obtain ⟨stepsField⟩ := rd
        cases stepsField with
        | none =>
          have hq : (getRecipe "" (FetchOutcome.ok (some ⟨none⟩)) s).speechQueue =
              s.speechQueue := by
            simp [getRecipe, getRecipeResponse]
          rw [hq]; exact h
        | some steps =>
          unfold getRecipe
          simp only [getRecipeResponse]
          split
          · next hlen =>
            rw [showView_speechQueue]
            apply queueLen_updateRecipeStepUI
            simpa using h
          · rw [showError_speechQueue]
            simpa using h
  | next =>
    show (handleNextStep s).speechQueue.length ≤ 1
    unfold handleNextStep
    split
    · exact queueLen_updateRecipeStepUI _ h
    · exact h
  | prev =>
    show (handlePrevStep s).speechQueue.length ≤ 1
    unfold handlePrevStep
    split
    · exact queueLen_updateRecipeStepUI _ h
    · exact h
  | repeatStep => exact queueLen_updateRecipeStepUI s h
  | reset =>
    show (handleStartOver s).speechQueue.length ≤ 1
    simp [handleStartOver, speechCancel]

lemma queueLen_run (ops : List Op) :
    ∀ s : AppState, s.speechQueue.length ≤ 1 →
      (run s ops).speechQueue.length ≤ 1 := by
  induction ops with
  | nil => intro s h; exact h
  | cons op ops ih => intro s h; exact ih (runOp s op) (queueLen_runOp s op h)

/-- Claim C7: every successful transition — a load with non-empty steps, a
non-boundary next, a non-boundary previous, and a repeat with steps loaded —
emits exactly one cancel-then-utter pair whose text is the step at the
resulting index, leaving exactly that utterance queued; boundary next/previous
calls emit nothing; and along every run from startup at most one utterance is
queued at any time. -/
theorem C7_read_aloud_per_transition :
    (∀ (d : String) (s : AppState) (steps : List String), steps ≠ [] →
      (getRecipe d (FetchOutcome.ok (some ⟨some steps⟩)) s).speechLog =
        s.speechLog ++ [SpeechEvent.cancel, SpeechEvent.utter (steps.getD 0 "")] ∧
      (getRecipe d (FetchOutcome.ok (some ⟨some steps⟩)) s).speechQueue =
        [steps.getD 0 ""]) ∧
    (∀ s : AppState, StepInv s →
      s.currentStepIndex < (s.recipeSteps.length : Int) - 1 →
      (handleNextStep s).speechLog = s.speechLog ++ [SpeechEvent.cancel,
        SpeechEvent.utter (s.recipeSteps.getD (s.currentStepIndex + 1).toNat "")] ∧
      (handleNextStep s).speechQueue =
        [s.recipeSteps.getD (s.currentStepIndex + 1).toNat ""]) ∧
    (∀ s : AppState, StepInv s → 0 < s.currentStepIndex →
      (handlePrevStep s).speechLog = s.speechLog ++ [SpeechEvent.cancel,
        SpeechEvent.utter (s.recipeSteps.getD (s.currentStepIndex - 1).toNat "")] ∧
      (handlePrevStep s).speechQueue =
        [s.recipeSteps.getD (s.currentStepIndex - 1).toNat ""]) ∧
    (∀ s : AppState, s.recipeSteps ≠ [] →
      (handleRepeatStep s).speechLog = s.speechLog ++ [SpeechEvent.cancel,
        SpeechEvent.utter (s.recipeSteps.getD s.currentStepIndex.toNat "")] ∧
      (handleRepeatStep s).speechQueue =
        [s.recipeSteps.getD s.currentStepIndex.toNat ""]) ∧
    (∀ s : AppState, ¬ s.currentStepIndex < (s.recipeSteps.length : Int) - 1 →
      (handleNextStep s).speechLog = s.speechLog) ∧
    (∀ s : AppState, ¬ 0 < s.currentStepIndex →
      (handlePrevStep s).speechLog = s.speechLog) ∧
    (∀ ops : List Op, (run initState ops).speechQueue.length ≤ 1) := by
  refine ⟨?_, ?_, ?_, ?_, ?_, ?_, ?_⟩
  · intro d s steps hne
    constructor
    · show (getRecipeResponse _ _).speechLog = _
      rw [(getRecipeResponse_success steps _ hne).2.2.2.1]
      simp
    · exact (getRecipeResponse_success steps _ hne).2.2.2.2.1
  · intro s hinv hlt
    have hne : s.recipeSteps ≠ [] := by
      intro he
      have := hinv.1 he
      rw [he] at hlt
      simp only [List.length_nil, Nat.cast_zero] at hlt
      omega
    have hne' : ({ s with currentStepIndex := s.currentStepIndex + 1 } :
        AppState).recipeSteps ≠ [] := hne
    obtain ⟨hlog, hq, _⟩ := updateRecipeStepUI_speech _ hne'
    unfold handleNextStep
    rw [if_pos hlt]
    exact ⟨hlog, hq⟩
  · intro s hinv hgt
    have hne : s.recipeSteps ≠ [] := by
      intro he
      have := hinv.1 he
      omega
    have hne' : ({ s with currentStepIndex := s.currentStepIndex - 1 } :
        AppState).recipeSteps ≠ [] := hne
    obtain ⟨hlog, hq, _⟩ := updateRecipeStepUI_speech _ hne'
    unfold handlePrevStep
    rw [if_pos hgt]
    exact ⟨hlog, hq⟩
  · intro s hne
    obtain ⟨hlog, hq, _⟩ := updateRecipeStepUI_speech s hne
    exact ⟨hlog, hq⟩
  · intro s hng
    unfold handleNextStep
    rw [if_neg hng]
  · intro s hng
    unfold handlePrevStep
    rw [if_neg hng]
  · intro ops
    exact queueLen_run ops initState (by decide)

/-- Witness for C7: concrete load, next, previous, repeat, and boundary
calls on two-step sessions. -/
theorem C7_read_aloud_per_transition_witness :
    (getRecipe "soup" (FetchOutcome.ok (some ⟨some ["a", "b"]⟩))
        initState).speechQueue = ["a"] ∧
    (handleNextStep
        { initState with recipeSteps := ["a", "b"], currentStepIndex := 0
        }).speechQueue = ["b"] ∧
    (handlePrevStep
        { initState with recipeSteps := ["a", "b"], currentStepIndex := 1
        }).speechQueue = ["a"] ∧
    (handleRepeatStep
        { initState with recipeSteps := ["a", "b"], currentStepIndex := 1
        }).speechQueue = ["b"] ∧
    (handleNextStep
        { initState with recipeSteps := ["a", "b"], currentStepIndex := 1
        }).speechLog =
      ({ initState with recipeSteps := ["a", "b"], currentStepIndex := 1
        } : AppState).speechLog ∧
    (handlePrevStep
        { initState with recipeSteps := ["a", "b"], currentStepIndex := 0
        }).speechLog =
      ({ initState with recipeSteps := ["a", "b"], currentStepIndex := 0
        } : AppState).speechLog ∧
    (run initState [Op.load (FetchOutcome.ok (some ⟨some ["a", "b"]⟩)),
        Op.next, Op.repeatStep]).speechQueue.length ≤ 1 :=
  ⟨(C7_read_aloud_per_transition.1 "soup" initState ["a", "b"] (by decide)).2,
   (C7_read_aloud_per_transition.2.1 _ (by decide) (by decide)).2,
   (C7_read_aloud_per_transition.2.2.1 _ (by decide) (by decide)).2,
   (C7_read_aloud_per_transition.2.2.2.1 _ (by decide)).2,
   C7_read_aloud_per_transition.2.2.2.2.1 _ (by decide),
   C7_read_aloud_per_transition.2.2.2.2.2.1 _ (by decide),
   C7_read_aloud_per_transition.2.2.2.2.2.2 _⟩

/-- Claim C9: `repeat` never changes the loaded steps or the current index
(nor the visible view, the dish input, the error box, or the fetch count);
with no steps loaded it is a complete no-op, and with steps loaded its only
effect beyond refreshing the already-displayed step text and button states is
the read-aloud of the current step — on a display already consistent with
the session it differs from the original state only in the speech fields. -/
theorem C9_repeat_is_pure_reemit :
    ∀ s : AppState,
      (handleRepeatStep s).recipeSteps = s.recipeSteps ∧
      (handleRepeatStep s).currentStepIndex = s.currentStepIndex ∧
      (handleRepeatStep s).inputVisible = s.inputVisible ∧
      (handleRepeatStep s).recipeVisible = s.recipeVisible ∧
      (handleRepeatStep s).loadingVisible = s.loadingVisible ∧
      (handleRepeatStep s).errorVisible = s.errorVisible ∧
      (handleRepeatStep s).dishInput = s.dishInput ∧
      (handleRepeatStep s).errorText = s.errorText ∧
      (handleRepeatStep s).errorHasBackButton = s.errorHasBackButton ∧
      (handleRepeatStep s).fetches = s.fetches ∧
      (s.recipeSteps = [] → handleRepeatStep s = s) ∧
      (s.recipeSteps ≠ [] →
        (handleRepeatStep s).speechLog = s.speechLog ++ [SpeechEvent.cancel,
          SpeechEvent.utter (s.recipeSteps.getD s.currentStepIndex.toNat "")] ∧
        (handleRepeatStep s).speechQueue =
          [s.recipeSteps.getD s.currentStepIndex.toNat ""]) ∧
      (s.recipeStepText = s.recipeSteps.getD s.currentStepIndex.toNat "" →
       s.prevDisabled = (s.currentStepIndex == 0) →
       s.nextDisabled = (s.currentStepIndex == (s.recipeSteps.length : Int) - 1) →
       handleRepeatStep s =
         { s with speechQueue := (handleRepeatStep s).speechQueue,
                  speechLog := (handleRepeatStep s).speechLog }) := by
  intro s
  refine ⟨by simp [handleRepeatStep], by simp [handleRepeatStep],
    by simp [handleRepeatStep], by simp [handleRepeatStep],
    by simp [handleRepeatStep], by simp [handleRepeatStep],
    by simp [handleRepeatStep], by simp [handleRepeatStep],
    by simp [handleRepeatStep], by simp [handleRepeatStep], ?_, ?_, ?_⟩
  · intro he
    unfold handleRepeatStep updateRecipeStepUI
    rw [if_pos (by simp [he])]
  · intro hne
    obtain ⟨hlog, hq, _⟩ := updateRecipeStepUI_speech s hne
    exact ⟨hlog, hq⟩
  · intro h1 h2 h3
    unfold handleRepeatStep updateRecipeStepUI
    split
    · rfl
    · obtain ⟨iv, rv, lv, ev, steps, idx, di, rst, pd, nd, et, ebb, sq, sl, f⟩ := s
      simp only at h1 h2 h3
      subst h1
      subst h2
      subst h3
      simp [speak, speechCancel, speechSpeakUtterance]

/-- Witness for C9 on a concrete two-step session with a consistent display. -/
theorem C9_repeat_is_pure_reemit_witness :
    handleRepeatStep initState = initState ∧
    (handleRepeatStep
        { initState with recipeSteps := ["a", "b"], currentStepIndex := 1,
                         recipeStepText := "b", prevDisabled := false,
                         nextDisabled := true }).speechQueue = ["b"] ∧
    handleRepeatStep
        { initState with recipeSteps := ["a", "b"], currentStepIndex := 1,
                         recipeStepText := "b", prevDisabled := false,
                         nextDisabled := true } =
      { ({ initState with recipeSteps := ["a", "b"], currentStepIndex := 1,
                          recipeStepText := "b", prevDisabled := false,
                          nextDisabled := true } : AppState) with
        speechQueue :=
          (handleRepeatStep
            { initState with recipeSteps := ["a", "b"], currentStepIndex := 1,
                             recipeStepText := "b", prevDisabled := false,
                             nextDisabled := true }).speechQueue,
        speechLog :=
          (handleRepeatStep
            { initState with recipeSteps := ["a", "b"], currentStepIndex := 1,
                             recipeStepText := "b", prevDisabled := false,
                             nextDisabled := true }).speechLog } :=
  ⟨(C9_repeat_is_pure_reemit initState).2.2.2.2.2.2.2.2.2.2.1 (by decide),
   ((C9_repeat_is_pure_reemit _).2.2.2.2.2.2.2.2.2.2.2.1 (by decide)).2,
   (C9_repeat_is_pure_reemit _).2.2.2.2.2.2.2.2.2.2.2.2 (by decide) (by decide)
     (by decide)⟩
